import Mathlib

/-!
Verification of the audiotrond CFA635 driver core.

Shallow embedding of the Go sources under src/ (package cfa635 plus the
application view layer).  Machine bytes are modelled as Nat with explicit
masking where the Go code relies on fixed-width arithmetic; fallible Go
functions return Except or Option; the background framer goroutine is
modelled as a state machine consuming an explicit event stream.
-/

namespace Audiotrond

/-! ## Checksum module (src/cfa635/crc.go)

Modelled from the spec: the Go code calls the external sigurn/crc16 library
with parameter set CRC16_X_25 (polynomial 0x1021 reflected = 0x8408, initial
value 0xFFFF, reflected input/output, final xor 0xFFFF); that library is not
part of this repository, so the checksum kernel below is the standard
bit-serial form of exactly that parameter set.  The functions pushCRC and
popCRC are translated from src/cfa635/crc.go. -/

/-- One shift-and-conditional-xor step of the reflected CRC-16/X-25 kernel. -/
def crcBit (c : Nat) : Nat :=
  if c % 2 = 1 then (c / 2) ^^^ 0x8408 else c / 2

/-- Fold one input byte into the running CRC: xor it in, then run eight bit
steps.  The mask mirrors the Go byte type of the data. -/
def crcByte (c b : Nat) : Nat :=
  crcBit^[8] (c ^^^ (b % 256))

/-- CRC-16/X-25 of a byte sequence: initial value 0xFFFF, final xor 0xFFFF. -/
def crc16 (bs : List Nat) : Nat :=
  (bs.foldl crcByte 0xFFFF) ^^^ 0xFFFF

/-- The Go pushCRC: append the 16-bit checksum little-endian (low byte first,
then high byte), exactly as binary.LittleEndian.PutUint16 lays it out. -/
def pushCRC (b : List Nat) : List Nat :=
  b ++ [crc16 b % 256, (crc16 b >>> 8) % 256]

/-- The Go popCRC: a buffer shorter than two bytes is invalid; otherwise strip
the trailing two bytes and compare the checksum of the rest against their
little-endian reading (binary.LittleEndian.Uint16). -/
def popCRC (b : List Nat) : List Nat × Bool :=
  if b.length < 2 then (b, false)
  else (b.take (b.length - 2),
    crc16 (b.take (b.length - 2)) ==
      b.getD (b.length - 2) 0 ||| (b.getD (b.length - 1) 0 <<< 8))

theorem crcBit_lt (c : Nat) (h : c < 65536) : crcBit c < 65536 := by
  unfold crcBit
  split
  · have h1 : c / 2 < 2 ^ 16 := by omega
    have h2 : (0x8408 : Nat) < 2 ^ 16 := by norm_num
    have := Nat.xor_lt_two_pow h1 h2
    simpa using this
  · omega

theorem crcByte_lt (c b : Nat) (h : c < 65536) : crcByte c b < 65536 := by
  unfold crcByte
  have hx : c ^^^ (b % 256) < 65536 := by
    have h1 : c < 2 ^ 16 := by simpa using h
    have h2 : b % 256 < 2 ^ 16 := by
      have : b % 256 < 256 := Nat.mod_lt _ (by norm_num)
      omega
    have := Nat.xor_lt_two_pow h1 h2
    simpa using this
  have main : ∀ n x, x < 65536 → crcBit^[n] x < 65536 := by
    intro n
    induction n with
    | zero => intro x hx2; simpa using hx2
    | succ k ih =>
        intro x hx2
        rw [Function.iterate_succ_apply]
        exact ih _ (crcBit_lt x hx2)
  exact main 8 _ hx

theorem crc16_lt (bs : List Nat) : crc16 bs < 65536 := by
  unfold crc16
  have main : ∀ l c, c < 65536 → List.foldl crcByte c l < 65536 := by
    intro l
    induction l with
    | nil => intro c hc; simpa using hc
    | cons x xs ih => intro c hc; exact ih _ (crcByte_lt c x hc)
  have h1 : List.foldl crcByte 0xFFFF bs < 2 ^ 16 := by
    simpa using main bs 0xFFFF (by norm_num)
  have h2 : (0xFFFF : Nat) < 2 ^ 16 := by norm_num
  have := Nat.xor_lt_two_pow h1 h2
  simpa using this

/-- Reading a little-endian byte pair back with a shifted or recovers the
value: low bits or-ed with the high byte shifted left by eight. -/
theorem lor_low_high (q r : Nat) (h : r < 256) : r ||| (q <<< 8) = 256 * q + r := by
  have h8 : r < 2 ^ 8 := by simpa using h
  rw [Nat.lor_comm, Nat.shiftLeft_eq, Nat.mul_comm q (2 ^ 8),
    ← Nat.mul_add_lt_is_or h8 q]

theorem getD_append_pair_left (l : List Nat) (x y d : Nat) :
    (l ++ [x, y]).getD l.length d = x := by
  induction l with
  | nil => rfl
  | cons a as ih => simpa using ih

theorem getD_append_pair_right (l : List Nat) (x y d : Nat) :
    (l ++ [x, y]).getD (l.length + 1) d = y := by
  induction l with
  | nil => rfl
  | cons a as ih => simpa using ih

/-- Claim C2: stripping and verifying the checksum appended by pushCRC is a
round trip: for every byte sequence b, popCRC (pushCRC b) = (b, true), where
pushCRC appends the CRC-16/X-25 checksum of b in little-endian order. -/
theorem popCRC_pushCRC_roundtrip (b : List Nat) : popCRC (pushCRC b) = (b, true) := by
  have hc := crc16_lt b
  set c := crc16 b with hcdef
  have hlen : (pushCRC b).length = b.length + 2 := by
    simp [pushCRC]
  have htake : (pushCRC b).take b.length = b :=
    List.take_left' rfl
  have hlo : (pushCRC b).getD b.length 0 = c % 256 :=
    getD_append_pair_left b _ _ 0
  have hhi : (pushCRC b).getD (b.length + 1) 0 = (c >>> 8) % 256 :=
    getD_append_pair_right b _ _ 0
  have hshift : (c >>> 8) % 256 = c / 256 := by
    rw [Nat.shiftRight_eq_div_pow]
    norm_num
    omega
  unfold popCRC
  rw [hlen]
  split
  · omega
  · have e2 : b.length + 2 - 2 = b.length := by omega
    have e1 : b.length + 2 - 1 = b.length + 1 := by omega
    rw [e2, e1, htake, hlo, hhi, hshift,
      lor_low_high _ _ (Nat.mod_lt _ (by norm_num))]
    have hrejoin : 256 * (c / 256) + c % 256 = c := by
      have := Nat.div_add_mod c 256
      omega
    rw [hrejoin, ← hcdef]
    simp

set_option maxRecDepth 10000 in
/-- The CRC kernel reproduces the published CRC-16/X-25 check value 0x906E on
the standard nine-byte test vector "123456789". -/
theorem crc16_check_value :
    crc16 [0x31, 0x32, 0x33, 0x34, 0x35, 0x36, 0x37, 0x38, 0x39] = 0x906E := by
  decide

/-! ## Report decoder (src/cfa635/report.go) -/

/-- Decode errors of report.go: errUnknownReportType, errUnknownKey,
errFBSCAB (fan speed hardware absent), errDOW (temperature sensor fault). -/
inductive RepErr where
  | unknownType
  | unknownKey
  | fbscab
  | dow
deriving DecidableEq

/-- KeyActivity report: which key, and whether it was pressed or released.
The Go Key type is an int; key constants run 1 (up) through 6 (exit). -/
structure KeyActivity where
  k : Nat
  pressed : Bool
deriving DecidableEq

/-- FanSpeed report: sensor number, tach cycle count, timer tick count. -/
structure FanSpeed where
  n : Nat
  tachCycles : Nat
  timerTicks : Nat
deriving DecidableEq

/-- Temperature report: sensor number and degrees Celsius.  The Go code uses
float64; every value it can produce is a 16-bit integer divided by 16, which
float64 represents exactly, so the rationals model it faithfully. -/
structure Temperature where
  n : Nat
  celsius : ℚ
deriving DecidableEq

/-- The Go decodeKeyActivity on the single payload byte. -/
def decodeKeyActivity (b : Nat) : Except RepErr KeyActivity :=
  if b = 0 ∨ b > 12 then .error .unknownKey
  else if b < 7 then .ok ⟨b, true⟩
  else .ok ⟨b - 6, false⟩

/-- The Go decodeFanSpeed on the four payload bytes; the timer tick count is
binary.BigEndian.Uint16 of bytes 2 and 3. -/
def decodeFanSpeed (b : List Nat) : Except RepErr FanSpeed :=
  if b.getD 1 0 = 0 ∧ b.getD 2 0 = 0 ∧ b.getD 3 0 = 0 then .error .fbscab
  else .ok ⟨b.getD 0 0, b.getD 1 0, b.getD 3 0 ||| (b.getD 2 0 <<< 8)⟩

/-- The Go decodeTemperature on the four payload bytes; the raw reading is
binary.BigEndian.Uint16 of bytes 1 and 2, and Celsius is raw / 16. -/
def decodeTemperature (b : List Nat) : Except RepErr Temperature :=
  if b.getD 3 0 = 0 then .error .dow
  else .ok ⟨b.getD 0 0, ((b.getD 2 0 ||| (b.getD 1 0 <<< 8) : Nat) : ℚ) / 16⟩

/-- Tagged union of the three report kinds routed to callers. -/
inductive Report where
  | key (a : KeyActivity)
  | fan (f : FanSpeed)
  | temp (t : Temperature)
deriving DecidableEq

/-- Claim C5: decodeKeyActivity returns the unknown-key error exactly on
payload 0 or above 12; bytes 1..6 decode to key b pressed, bytes 7..12 to
key b - 6 released. -/
theorem decodeKeyActivity_spec (b : Nat) :
    (decodeKeyActivity b = .error .unknownKey ↔ b = 0 ∨ b > 12) ∧
    (1 ≤ b → b ≤ 6 → decodeKeyActivity b = .ok ⟨b, true⟩) ∧
    (7 ≤ b → b ≤ 12 → decodeKeyActivity b = .ok ⟨b - 6, false⟩) := by
  unfold decodeKeyActivity
  refine ⟨?_, ?_, ?_⟩
  · split_ifs with h1 h2 <;> simp_all
  · intro h1 h2
    split_ifs with g1 g2 <;> first | rfl | omega
  · intro h1 h2
    split_ifs with g1 g2 <;> first | rfl | omega

/-- Witness for C5 at the boundary inputs 13 (unknown), 3 (pressed) and
9 (released key 3). -/
theorem decodeKeyActivity_spec_witness :
    decodeKeyActivity 13 = .error .unknownKey ∧
    decodeKeyActivity 3 = .ok ⟨3, true⟩ ∧
    decodeKeyActivity 9 = .ok ⟨3, false⟩ :=
  ⟨(decodeKeyActivity_spec 13).1.mpr (by decide),
   (decodeKeyActivity_spec 3).2.1 (by decide) (by decide),
   (decodeKeyActivity_spec 9).2.2 (by decide) (by decide)⟩

/-- Claim C6: on a four-byte fan-speed payload, decodeFanSpeed errors exactly
when tach count and both timer-tick bytes are zero; otherwise it reports
sensor byte 0, tach byte 1, and the big-endian 16-bit tick count. -/
theorem decodeFanSpeed_spec (b : List Nat) (hlen : b.length = 4)
    (hbytes : ∀ x ∈ b, x < 256) :
    (decodeFanSpeed b = .error .fbscab ↔
      b.getD 1 0 = 0 ∧ b.getD 2 0 = 0 ∧ b.getD 3 0 = 0) ∧
    (¬(b.getD 1 0 = 0 ∧ b.getD 2 0 = 0 ∧ b.getD 3 0 = 0) →
      decodeFanSpeed b =
        .ok ⟨b.getD 0 0, b.getD 1 0, 256 * b.getD 2 0 + b.getD 3 0⟩) := by
  have hb3 : b.getD 3 0 < 256 := by
    have hmem : b.getD 3 0 ∈ b := by
      have hlt : 3 < b.length := by omega
      rw [List.getD_eq_getElem?_getD, List.getElem?_eq_getElem hlt]
      exact List.getElem_mem hlt
    exact hbytes _ hmem
  constructor
  · unfold decodeFanSpeed
    split_ifs with h <;> simp_all
  · intro h
    unfold decodeFanSpeed
    split_ifs
    rw [lor_low_high _ _ hb3]

/-- Witness for C6 at the payloads named in the spec: [2,0,0,0] is the
hardware-absent sentinel and [2,5,0,10] reads sensor 2, tach 5, ticks 10. -/
theorem decodeFanSpeed_spec_witness :
    decodeFanSpeed [2, 0, 0, 0] = .error .fbscab ∧
    decodeFanSpeed [2, 5, 0, 10] = .ok ⟨2, 5, 10⟩ :=
  ⟨(decodeFanSpeed_spec [2, 0, 0, 0] (by decide) (by decide)).1.mpr (by decide),
   (decodeFanSpeed_spec [2, 5, 0, 10] (by decide) (by decide)).2 (by decide)⟩

/-- Claim C7: on a four-byte temperature payload, decodeTemperature errors
exactly when the status byte is zero; otherwise it reports sensor byte 0 and
the big-endian 16-bit raw value divided by 16 as Celsius. -/
theorem decodeTemperature_spec (b : List Nat) (hlen : b.length = 4)
    (hbytes : ∀ x ∈ b, x < 256) :
    (decodeTemperature b = .error .dow ↔ b.getD 3 0 = 0) ∧
    (b.getD 3 0 ≠ 0 →
      decodeTemperature b =
        .ok ⟨b.getD 0 0, ((256 * b.getD 1 0 + b.getD 2 0 : Nat) : ℚ) / 16⟩) := by
  have hb2 : b.getD 2 0 < 256 := by
    have hmem : b.getD 2 0 ∈ b := by
      have hlt : 2 < b.length := by omega
      rw [List.getD_eq_getElem?_getD, List.getElem?_eq_getElem hlt]
      exact List.getElem_mem hlt
    exact hbytes _ hmem
  constructor
  · unfold decodeTemperature
    split_ifs with h <;> simp_all
  · intro h
    unfold decodeTemperature
    split_ifs with g
    · exact absurd g h
    · rw [lor_low_high _ _ hb2]

/-- Witness for C7 at the payloads named in the spec: [1,0x01,0x90,0x01]
reads sensor 1 at 25 degrees Celsius (0x0190 = 400, 400 / 16 = 25), and a
zero status byte is the sensor-fault sentinel. -/
theorem decodeTemperature_spec_witness :
    decodeTemperature [1, 0x01, 0x90, 0x01] = .ok ⟨1, 25⟩ ∧
    decodeTemperature [1, 0x01, 0x90, 0x00] = .error .dow := by
  constructor
  · have h := (decodeTemperature_spec [1, 0x01, 0x90, 0x01] (by decide)
      (by decide)).2 (by decide)
    rw [h]
    norm_num
  · exact (decodeTemperature_spec [1, 0x01, 0x90, 0x00] (by decide)
      (by decide)).1.mpr (by decide)

/-! ## Byte framer (src/cfa635/decode.go)

The decode goroutine consumes the byte channel and, per packet, a one-shot
timeout channel armed right after the type byte is read.  We model the merged
sequence of channel deliveries as a list of events: a byte arrival, or the
firing of the armed timeout channel.  The list ending models the byte channel
closing (break Outer), after which decode terminates.

Faithfulness notes on the Go control flow:
  - In the length select, the timeout arm logs and executes continue, whose
    innermost enclosing for loop is the labelled Outer loop, so the machine
    really does restart at the type state.
  - In the body/CRC collection loop for i smaller than length+2, the timeout
    arm also executes continue, but there the innermost enclosing for loop is
    the collection loop itself: i advances without a byte having been
    appended, and the one-shot timer channel never fires again, so all later
    iterations can only receive bytes.  The model reproduces exactly that
    (the armed flag goes false and one remaining iteration is consumed).
  - A tick for a timer that is not armed cannot be delivered in Go (nothing
    selects on a fired or abandoned timer channel); the model skips such
    events, which are never exercised by the theorems below. -/

/-- Event consumed by the framer: a byte from the bytes channel, or the
firing of the armed packet timeout. -/
inductive Ev where
  | byte (b : Nat)
  | tick
deriving DecidableEq

/-- Framer state: awaiting the type byte, awaiting the length byte (timer
armed), or collecting rem more data/CRC bytes with the given armed flag. -/
inductive DecSt where
  | awaitType
  | awaitLen (p : List Nat)
  | body (p : List Nat) (armed : Bool) (rem : Nat)

/-- Finish a collected packet exactly as decode does: popCRC it; on a CRC
failure the packet is dropped, otherwise the stripped packet is delivered. -/
def finishPacket (p : List Nat) : List (List Nat) :=
  match popCRC p with
  | (q, true) => [q]
  | (_, false) => []

/-- Run of the decode state machine over an event list, returning the
packets delivered on the packets channel, in order. -/
def decodeRun : DecSt → List Ev → List (List Nat)
  | _, [] => []
  | .awaitType, .tick :: es => decodeRun .awaitType es
  | .awaitType, .byte b :: es => decodeRun (.awaitLen [b]) es
  | .awaitLen _, .tick :: es => decodeRun .awaitType es
  | .awaitLen p, .byte len :: es =>
      if len > 22 then decodeRun .awaitType es
      else decodeRun (.body (p ++ [len]) true (len + 2)) es
  | .body p armed rem, .tick :: es =>
      if armed then
        if rem ≤ 1 then finishPacket p ++ decodeRun .awaitType es
        else decodeRun (.body p false (rem - 1)) es
      else decodeRun (.body p armed rem) es
  | .body p armed rem, .byte b :: es =>
      if rem ≤ 1 then finishPacket (p ++ [b]) ++ decodeRun .awaitType es
      else decodeRun (.body (p ++ [b]) armed (rem - 1)) es

/-- A complete well-formed ping-response packet, type 0x40 with empty
payload, used as the next packet arriving after a mid-packet timeout. -/
def goodPacket : List Nat := pushCRC [0x40, 0x00]

/-- Event stream for claim C1: a packet whose type byte (0x01) and length
byte (0x00) arrive, whose remaining two CRC bytes time out, followed by the
bytes of a complete well-formed packet. -/
def timeoutStream : List Ev :=
  [Ev.byte 0x01, Ev.byte 0x00, Ev.tick] ++ goodPacket.map Ev.byte

set_option maxRecDepth 10000 in
/-- Claim C1 evaluated at the failing input (code bug).  The claim says a
mid-body timeout discards the partial packet and restarts the framer at the
type state, so the well-formed packet following the tick in timeoutStream
would be parsed from a fresh type byte and delivered.  The code instead
treats the continue in the body select as continuing the collection loop:
the fresh packet alone is delivered (first conjunct), but after the timeout
the framer swallows the next packet's type byte into the timed-out packet
and delivers nothing at all (second conjunct). -/
theorem decode_timeout_divergence :
    decodeRun .awaitType (goodPacket.map Ev.byte) = [[0x40, 0x00]] ∧
    decodeRun .awaitType timeoutStream = [] := by
  constructor
  · decide
  · decide

set_option maxRecDepth 10000 in
/-- The length-byte timeout path does restart at the type state: with the
tick arriving in place of the length byte, the same trailing well-formed
packet is parsed from a fresh type byte and delivered. -/
theorem decode_length_timeout_recovers :
    decodeRun .awaitType ([Ev.byte 0x01, Ev.tick] ++ goodPacket.map Ev.byte) =
      [[0x40, 0x00]] := by
  decide

/-! ## Report/response router (src/cfa635/decode.go route, report.go) -/

/-- Packet classification of route: the top two bits of the type byte equal
0b10 exactly for report packets; everything else is a response. -/
def isReport (p : List Nat) : Bool :=
  (p.getD 0 0 &&& 0xC0) >>> 6 == 0b10

/-- The Go decodeReport on a CRC-stripped packet.  Go checks list indexing
against the slice length, so the p[2] read for type 0x80 panics when the
packet has fewer than three bytes; none models that runtime panic.  For
types 0x81/0x82 the expression p[2:6] is a reslice, checked against the
26-byte backing capacity rather than the length, so it never panics for
framer-produced packets; it is modelled as drop 2 / take 4. -/
def decodeReport (p : List Nat) : Option (Except RepErr Report) :=
  match p.getD 0 0 with
  | 0x80 =>
      match p[2]? with
      | none => none
      | some b => some ((decodeKeyActivity b).map Report.key)
  | 0x81 => some ((decodeFanSpeed ((p.drop 2).take 4)).map Report.fan)
  | 0x82 => some ((decodeTemperature ((p.drop 2).take 4)).map Report.temp)
  | _ => some (.error .unknownType)

/-- The complete wire packet of type 0x80 carrying zero payload bytes: a
CRC-valid key-activity report frame shorter than its documented payload. -/
def shortKeyReportPacket : List Nat := pushCRC [0x80, 0x00]

set_option maxRecDepth 10000 in
/-- Claim C10: decodeReport indexes the payload without a length check.  The
CRC-valid packet of type 0x80 with length byte 0 passes the framer and is
delivered as the stripped packet [0x80, 0x00]; route classifies it as a
report and hands it to decodeReport, whose p[2] read is out of range
(modelled as none, a Go runtime panic). -/
theorem decodeReport_short_packet_panics :
    decodeRun .awaitType (shortKeyReportPacket.map Ev.byte) = [[0x80, 0x00]] ∧
    isReport [0x80, 0x00] = true ∧
    decodeReport [0x80, 0x00] = none := by
  refine ⟨by decide, by decide, rfl⟩

/-! ## Display state and diff engine (src/cfa635/decode.go LCDState, Update)

An LCDState is a 4 by 20 byte grid; rows are modelled as lists of bytes and
the grid as the list of its four rows.  Update is modelled as the pure
function returning the list of Put calls (column, row, data) it issues; the
Go writer aborts on a Put error, which the claims do not exercise. -/

/-- Scan of the first loop of Update: the index of the first cell where the
new row differs from the old row, or the row length if none differs. -/
def firstDiff : List Nat → List Nat → Nat
  | o :: os, n :: ns => if n = o then firstDiff os ns + 1 else 0
  | _, _ => 0

/-- Scan of the second loop of Update: starting from index l and moving
down, skip cells that are equal while the index stays above first. -/
def lastScan (o n : List Nat) (first : Nat) : Nat → Nat
  | 0 => 0
  | l + 1 =>
      if l + 1 > first ∧ n.getD (l + 1) 0 = o.getD (l + 1) 0 then
        lastScan o n first l
      else l + 1

/-- One row of Update: no write when the first scan runs off the end of the
row; otherwise the Put data are the new row from first through last. -/
def updateRow (o n : List Nat) : Option (Nat × List Nat) :=
  if firstDiff o n = o.length then none
  else
    some (firstDiff o n,
      (n.drop (firstDiff o n)).take
        (lastScan o n (firstDiff o n) (o.length - 1) + 1 - firstDiff o n))

/-- The Go Update: nothing at all when the states are equal, otherwise the
per-row writes in row order, each tagged with its row index. -/
def update (old new : List (List Nat)) : List (Nat × Nat × List Nat) :=
  if old = new then []
  else
    ((old.zip new).enum).filterMap fun e =>
      (updateRow e.2.1 e.2.2).map fun w => (w.1, e.1, w.2)

/-- Specification-side definition, following the words of the spec: the
length of the longest common leading prefix of two rows. -/
def lcpLen (a b : List Nat) : Nat :=
  ((a.zip b).takeWhile fun p => p.1 == p.2).length

/-- Specification-side definition: the length of the longest common trailing
suffix of two rows. -/
def lcsLen (a b : List Nat) : Nat := lcpLen a.reverse b.reverse

/-- Specification-side row diff, following the words of the spec: an
unchanged row issues no write, a changed row issues one write at column
prefix_len carrying the new row with the longest common leading prefix and
the longest common trailing suffix trimmed. -/
def specRowWrite (o n : List Nat) : Option (Nat × List Nat) :=
  if o = n then none
  else
    some (lcpLen o n, (n.drop (lcpLen o n)).take (n.length - lcsLen o n - lcpLen o n))

/-- Specification-side diff over the whole state, rows treated independently
in row order. -/
def specDiff (old new : List (List Nat)) : List (Nat × Nat × List Nat) :=
  ((old.zip new).enum).filterMap fun e =>
    (specRowWrite e.2.1 e.2.2).map fun w => (w.1, e.1, w.2)

/-- Well-formed display state: four rows of twenty cells. -/
def WFState (s : List (List Nat)) : Prop :=
  s.length = 4 ∧ ∀ r ∈ s, r.length = 20

instance (s : List (List Nat)) : Decidable (WFState s) := by
  unfold WFState; infer_instance

/-- The Go ClearedLCDState: every cell holds 0x20. -/
def clearedLCDState : List (List Nat) :=
  List.replicate 4 (List.replicate 20 0x20)

theorem lcpLen_nil_left (b : List Nat) : lcpLen [] b = 0 := by
  simp [lcpLen]

theorem lcpLen_nil_right (a : List Nat) : lcpLen a [] = 0 := by
  simp [lcpLen]

theorem lcpLen_cons (a b : Nat) (as bs : List Nat) :
    lcpLen (a :: as) (b :: bs) = if a = b then lcpLen as bs + 1 else 0 := by
  by_cases h : a = b <;> simp [lcpLen, List.takeWhile_cons, h]

theorem lcpLen_cons_self (a : Nat) (as bs : List Nat) :
    lcpLen (a :: as) (a :: bs) = lcpLen as bs + 1 := by
  simp [lcpLen_cons]

theorem firstDiff_eq_lcpLen (o n : List Nat) : firstDiff o n = lcpLen o n := by
  induction o generalizing n with
  | nil => cases n <;> simp [firstDiff, lcpLen]
  | cons a as ih =>
      cases n with
      | nil => simp [firstDiff, lcpLen]
      | cons b bs =>
          by_cases h : a = b
          · subst h; rw [lcpLen_cons_self]; simp [firstDiff, ih]
          · have h2 : ¬b = a := fun g => h g.symm
            rw [lcpLen_cons, if_neg h]
            simp [firstDiff, h2]

theorem lcpLen_self (a : List Nat) : lcpLen a a = a.length := by
  induction a with
  | nil => simp [lcpLen_nil_left]
  | cons x xs ih => simp [lcpLen_cons, ih]

theorem lcpLen_le_left (a b : List Nat) : lcpLen a b ≤ a.length := by
  induction a generalizing b with
  | nil => simp [lcpLen_nil_left]
  | cons x xs ih =>
      cases b with
      | nil => simp [lcpLen_nil_right]
      | cons y ys =>
          by_cases h : x = y
          · subst h
            rw [lcpLen_cons_self]
            simpa using Nat.succ_le_succ (ih ys)
          · rw [lcpLen_cons, if_neg h]
            simp

theorem lcpLen_prefix_eq (a b : List Nat) (k : Nat) (h : k < lcpLen a b) :
    a.getD k 0 = b.getD k 0 := by
  induction a generalizing b k with
  | nil => simp [lcpLen_nil_left] at h
  | cons x xs ih =>
      cases b with
      | nil => simp [lcpLen_nil_right] at h
      | cons y ys =>
          by_cases hxy : x = y
          · subst hxy
            rw [lcpLen_cons_self] at h
            cases k with
            | zero => rfl
            | succ k2 =>
                simp only [List.getD_cons_succ]
                exact ih ys k2 (by omega)
          · rw [lcpLen_cons, if_neg hxy] at h
            omega

theorem lcpLen_stop (a b : List Nat) (ha : lcpLen a b < a.length)
    (hb : lcpLen a b < b.length) :
    a.getD (lcpLen a b) 0 ≠ b.getD (lcpLen a b) 0 := by
  induction a generalizing b with
  | nil => simp at ha
  | cons x xs ih =>
      cases b with
      | nil => simp at hb
      | cons y ys =>
          by_cases hxy : x = y
          · subst hxy
            rw [lcpLen_cons_self] at ha hb ⊢
            simpa using ih ys (by simpa using ha) (by simpa using hb)
          · rw [lcpLen_cons, if_neg hxy]
            simpa using hxy

theorem lcpLen_lt_of_ne (a b : List Nat) (hlen : a.length = b.length)
    (hne : a ≠ b) : lcpLen a b < a.length := by
  induction a generalizing b with
  | nil =>
      cases b with
      | nil => exact absurd rfl hne
      | cons y ys => simp at hlen
  | cons x xs ih =>
      cases b with
      | nil => simp at hlen
      | cons y ys =>
          by_cases hxy : x = y
          · subst hxy
            have hne2 : xs ≠ ys := by
              intro g; exact hne (by rw [g])
            have := ih ys (by simpa using hlen) hne2
            rw [lcpLen_cons_self]
            simpa using Nat.succ_lt_succ this
          · rw [lcpLen_cons, if_neg hxy]
            simp

theorem getD_reverse (l : List Nat) (j : Nat) (h : j < l.length) :
    l.reverse.getD j 0 = l.getD (l.length - 1 - j) 0 := by
  rw [List.getD_eq_getElem?_getD, List.getD_eq_getElem?_getD,
    List.getElem?_reverse h]

theorem lastScan_eq (o n : List Nat) (first d : Nat)
    (hstopd : ¬(d > first ∧ n.getD d 0 = o.getD d 0)) :
    ∀ m, d ≤ m → (∀ k, d < k → k ≤ m → n.getD k 0 = o.getD k 0) →
      first ≤ d → lastScan o n first m = d := by
  intro m
  induction m with
  | zero =>
      intro hdm _ _
      have : d = 0 := by omega
      subst this
      rfl
  | succ l ih =>
      intro hdm hk hf
      by_cases hcase : d = l + 1
      · subst hcase
        unfold lastScan
        rw [if_neg hstopd]
      · have hdl : d ≤ l := by omega
        unfold lastScan
        rw [if_pos ⟨by omega, hk (l + 1) (by omega) (by omega)⟩]
        exact ih hdl (fun k h1 h2 => hk k h1 (by omega)) hf

theorem updateRow_eq_specRowWrite (o n : List Nat) (hlen : o.length = n.length) :
    updateRow o n = specRowWrite o n := by
  by_cases heq : o = n
  · subst heq
    unfold updateRow specRowWrite
    rw [if_pos rfl, if_pos (by rw [firstDiff_eq_lcpLen, lcpLen_self])]
  · have hL0 : o.length ≠ 0 := by
      intro g
      have go : o = [] := List.length_eq_zero.mp g
      have gn : n = [] := List.length_eq_zero.mp (by omega)
      exact heq (go.trans gn.symm)
    set L := o.length with hLdef
    have hfd := firstDiff_eq_lcpLen o n
    have hfirst_lt : lcpLen o n < L := lcpLen_lt_of_ne o n hlen heq
    have hrevne : o.reverse ≠ n.reverse := fun g => heq (List.reverse_inj.mp g)
    have hrevlen : o.reverse.length = n.reverse.length := by simpa using hlen
    have hlcs_lt : lcsLen o n < L := by
      have := lcpLen_lt_of_ne o.reverse n.reverse hrevlen hrevne
      simpa [lcsLen] using this
    set d := L - 1 - lcsLen o n with hddef
    have hd_lt : d < L := by omega
    have hlcs_eq : lcpLen o.reverse n.reverse = lcsLen o n := rfl
    have hlo : lcsLen o n < o.length := by omega
    have hln : lcsLen o n < n.length := by omega
    have hne_d : n.getD d 0 ≠ o.getD d 0 := by
      have hstop := lcpLen_stop o.reverse n.reverse
        (by rw [hlcs_eq, List.length_reverse]; exact hlo)
        (by rw [hlcs_eq, List.length_reverse]; exact hln)
      rw [hlcs_eq, getD_reverse o (lcsLen o n) hlo,
        getD_reverse n (lcsLen o n) hln] at hstop
      have e1 : o.length - 1 - lcsLen o n = d := by omega
      have e2 : n.length - 1 - lcsLen o n = d := by omega
      rw [e1, e2] at hstop
      exact fun g => hstop g.symm
    have hsuffix : ∀ k, d < k → k < L → n.getD k 0 = o.getD k 0 := by
      intro k hdk hkL
      have hj : L - 1 - k < lcsLen o n := by omega
      have hjo : L - 1 - k < o.length := by omega
      have hjn : L - 1 - k < n.length := by omega
      have hpre := lcpLen_prefix_eq o.reverse n.reverse (L - 1 - k)
        (by rw [hlcs_eq]; exact hj)
      rw [getD_reverse o (L - 1 - k) hjo, getD_reverse n (L - 1 - k) hjn] at hpre
      have e1 : o.length - 1 - (L - 1 - k) = k := by omega
      have e2 : n.length - 1 - (L - 1 - k) = k := by omega
      rw [e1, e2] at hpre
      exact hpre.symm
    have hfirst_le_d : lcpLen o n ≤ d := by
      by_contra hcon
      have hk := hsuffix (lcpLen o n) (by omega) hfirst_lt
      have hstop := lcpLen_stop o n hfirst_lt (by omega)
      exact hstop hk.symm
    have hscan : lastScan o n (lcpLen o n) (o.length - 1) = d := by
      apply lastScan_eq o n (lcpLen o n) d
      · intro g
        exact hne_d g.2
      · omega
      · intro k h1 h2
        exact hsuffix k h1 (by omega)
      · exact hfirst_le_d
    unfold updateRow specRowWrite
    rw [if_neg (by rw [hfd]; omega), if_neg heq, hfd, hscan]
    have harith : d + 1 - lcpLen o n = n.length - lcsLen o n - lcpLen o n := by
      omega
    rw [harith]

theorem specRowWrite_self (r : List Nat) : specRowWrite r r = none := by
  unfold specRowWrite
  rw [if_pos rfl]

theorem specDiff_rows_self (l : List (List Nat)) :
    ∀ k, ((l.zip l).enumFrom k).filterMap
      (fun e => (specRowWrite e.2.1 e.2.2).map fun w => (w.1, e.1, w.2)) = [] := by
  induction l with
  | nil => intro k; rfl
  | cons r rs ih =>
      intro k
      simp only [List.zip_cons_cons, List.enumFrom_cons, List.filterMap_cons,
        specRowWrite_self, Option.map_none]
      exact ih (k + 1)

theorem filterMap_rows_congr (l : List (List Nat × List Nat))
    (h : ∀ p ∈ l, updateRow p.1 p.2 = specRowWrite p.1 p.2) :
    ∀ k, (l.enumFrom k).filterMap
        (fun e => (updateRow e.2.1 e.2.2).map fun w => (w.1, e.1, w.2)) =
      (l.enumFrom k).filterMap
        (fun e => (specRowWrite e.2.1 e.2.2).map fun w => (w.1, e.1, w.2)) := by
  induction l with
  | nil => intro k; rfl
  | cons p ps ih =>
      intro k
      simp only [List.enumFrom_cons, List.filterMap_cons]
      rw [h p (List.mem_cons_self p ps)]
      rw [ih (fun q hq => h q (List.mem_cons_of_mem p hq)) (k + 1)]

/-- Claim C3: Update issues zero writes when the states are equal, and
otherwise behaves, for each of the four rows independently, exactly as the
specification diff: no write for an unchanged row, and one Put at column
prefix_len carrying the new row with the longest common leading prefix and
longest common trailing suffix trimmed for a changed row. -/
theorem update_eq_specDiff (old new : List (List Nat))
    (h1 : WFState old) (h2 : WFState new) :
    update old new = specDiff old new ∧ (old = new → update old new = []) := by
  constructor
  · by_cases heq : old = new
    · subst heq
      unfold update specDiff
      rw [if_pos rfl]
      exact (specDiff_rows_self old 0).symm
    · unfold update specDiff
      rw [if_neg heq]
      have hcong : ∀ p ∈ old.zip new, updateRow p.1 p.2 = specRowWrite p.1 p.2 := by
        intro p hp
        obtain ⟨hpo, hpn⟩ := List.of_mem_zip hp
        exact updateRow_eq_specRowWrite p.1 p.2
          (by rw [h1.2 p.1 hpo, h2.2 p.2 hpn])
      exact filterMap_rows_congr (old.zip new) hcong 0
  · intro heq
    unfold update
    rw [if_pos heq]

/-- Witness for C3 at a concrete pair of well-formed states: the cleared
4 by 20 state against a state with row 1 changed in columns 3 through 6. -/
theorem update_eq_specDiff_witness :
    WFState clearedLCDState ∧
    WFState (clearedLCDState.set 1
      ((List.replicate 20 0x20).set 3 0x41 |>.set 6 0x42)) ∧
    update clearedLCDState (clearedLCDState.set 1
      ((List.replicate 20 0x20).set 3 0x41 |>.set 6 0x42)) =
      specDiff clearedLCDState (clearedLCDState.set 1
        ((List.replicate 20 0x20).set 3 0x41 |>.set 6 0x42)) :=
  ⟨by decide, by decide,
   (update_eq_specDiff clearedLCDState _ (by decide) (by decide)).1⟩

/-! ## Typed commands (src/cfa635/charset.go Module methods)

The Put method is modelled as a pure function from its arguments to either a
validation error (returned before anything touches the transport) or the
payload it hands to simple(0x1f, payload, 0x5f, nil).  Go int arguments are
modelled as Int so the negative-index checks are meaningful. -/

/-- Validation and protocol errors of the Module command layer. -/
inductive CmdErr where
  | payloadTooLarge
  | cgram
  | sprite
  | position
  | backlight
  | ledIndex
  | ledDuty
  | timedOut
  | failed
deriving DecidableEq

/-- The Go Put: reject an out-of-range position, truncate data that would
overflow the remaining columns of the row, and send [col, row] ++ data. -/
def put (col row : Int) (data : List Nat) : Except CmdErr (List Nat) :=
  if col < 0 ∨ 20 ≤ col ∨ row < 0 ∨ 4 ≤ row then .error .position
  else
    let width : Int := 20 - col
    let data2 := if width < (data.length : Int) then data.take width.toNat else data
    .ok (col.toNat :: row.toNat :: data2)

/-- Claim C4: Put with col outside [0,19] or row outside [0,3] returns the
position error without any transport write; on a valid position the data are
truncated to the 20 - col remaining columns of the row (exactly 20 - col
bytes when longer), and the write never extends past column 19 of that
row. -/
theorem put_spec (col row : Int) (data : List Nat) :
    ((col < 0 ∨ 20 ≤ col ∨ row < 0 ∨ 4 ≤ row) →
      put col row data = .error .position) ∧
    (0 ≤ col → col < 20 → 0 ≤ row → row < 4 →
      put col row data =
        .ok (col.toNat :: row.toNat :: data.take (20 - col.toNat)) ∧
      (20 - col.toNat ≤ data.length →
        (data.take (20 - col.toNat)).length = 20 - col.toNat) ∧
      col.toNat + (data.take (20 - col.toNat)).length ≤ 20) := by
  constructor
  · intro h
    unfold put
    rw [if_pos h]
  · intro h0 h1 h2 h3
    have hval : ¬(col < 0 ∨ 20 ≤ col ∨ row < 0 ∨ 4 ≤ row) := by omega
    refine ⟨?_, ?_, ?_⟩
    · unfold put
      rw [if_neg hval]
      simp only
      split
      · have : (20 - col).toNat = 20 - col.toNat := by omega
        rw [this]
      · rename_i hw
        have hle : data.length ≤ 20 - col.toNat := by omega
        rw [List.take_of_length_le hle]
    · intro hlong
      rw [List.length_take]
      omega
    · rw [List.length_take]
      omega

/-- Witness for C4: a negative column is rejected, and at column 5 a 30-byte
write is truncated to the 15 remaining columns of row 2. -/
theorem put_spec_witness :
    put (-1) 0 [0x41] = .error .position ∧
    put 5 2 (List.replicate 30 0x41) =
      .ok (5 :: 2 :: List.replicate 15 0x41) :=
  ⟨(put_spec (-1) 0 [0x41]).1 (by decide),
   ((put_spec 5 2 (List.replicate 30 0x41)).2 (by decide) (by decide)
     (by decide) (by decide)).1⟩

/-! ## Charset transliterator (src/cfa635/charset.go NewEncoder, encode1)

The encoder passes runes in the identity range table of NewEncoder through
unchanged (all are ASCII, one byte equal to the code point) and sends every
other rune through encode1.  The encode1 switch is modelled as first-match
lookup in its case table.  The stored source file is double-encoded; five
byte values unrepresentable in the intermediate encoding were reconstructed
from context (media triangles, superscripts, accented capitals, arrows, the
heavy black heart, the eighth note); every reconstruction re-encodes to the
stored bytes, and no choice affects the returned device bytes. -/

/-- The encode1 case table of src/cfa635/charset.go: each entry pairs the
list of Unicode code points of one switch case with the device byte that
case returns, in source order.  Go switch cases are disjoint, so first
match equals the unique match. -/
def encodeTable : List (List Nat × Nat) := [
  ([0x23F5, 0x25B6, 0x25B8, 0x25BA, 0x2BC8], 0x10),
  ([0x23F4, 0x25C0, 0x2BC7], 0x11),
  ([0x23EB], 0x12),
  ([0x23EC], 0x13),
  ([0x00AB, 0x226A, 0x300A], 0x14),
  ([0x00BB, 0x226B, 0x300B], 0x15),
  ([0x2196, 0x2B09, 0x2B66], 0x16),
  ([0x2197, 0x2B08, 0x2B67], 0x17),
  ([0x2199, 0x2B0B, 0x2B69], 0x18),
  ([0x2198, 0x2B0A, 0x2B68], 0x19),
  ([0x23F6, 0x25B2, 0x25B4], 0x1A),
  ([0x23F7, 0x25BC, 0x25BE], 0x1B),
  ([0x21B2, 0x21B5, 0x23CE, 0x2B90], 0x1C),
  ([0x005E, 0x02C4, 0x02C6, 0x2303], 0x1D),
  ([0x1D5B], 0x1E),
  ([0x00A0, 0x2000, 0x2001, 0x2002, 0x2003, 0x2004, 0x2005, 0x2006, 0x2007, 0x2008, 0x2009, 0x200A, 0x202F, 0x2060, 0x3000], 0x20),
  ([0x01C3], 0x21),
  ([0x02BA, 0x02DD, 0x05F4, 0x2033, 0x3003], 0x22),
  ([0x2114, 0x2317, 0x266F, 0x29E3], 0x23),
  ([0x00A4], 0x24),
  ([0x066A, 0x2052], 0x25),
  ([0x02B9, 0x02BC, 0x02C8, 0x05F3, 0x2018, 0x2019, 0x2032, 0xA78C], 0x27),
  ([0x066D, 0x2217, 0x26B9], 0x2A),
  ([0x02D6], 0x2B),
  ([0x201A], 0x2C),
  ([0x02D7, 0x2010, 0x2011, 0x2012, 0x2013, 0x2212, 0x10191], 0x2D),
  ([0x2024], 0x2E),
  ([0x2044, 0x2215, 0x27CB], 0x2F),
  ([0x0589, 0x05C3, 0x1361, 0x2236, 0xA789], 0x3A),
  ([0x037E], 0x3B),
  ([0x02C2, 0x2039, 0x2329, 0x27E8, 0x3008], 0x3C),
  ([0x1400, 0x2E40, 0x30A0, 0xA78A, 0x10190, 0x1F7F0], 0x3D),
  ([0x02C3, 0x203A, 0x232A, 0x27E9, 0x3009], 0x3E),
  ([0x00A1], 0x40),
  ([0x00C4], 0x5B),
  ([0x00D6], 0x5C),
  ([0x00D1], 0x5D),
  ([0x00DC], 0x5E),
  ([0x00A7], 0x5D),
  ([0x00BF], 0x60),
  ([0x00E4], 0x7B),
  ([0x00F6], 0x7C),
  ([0x00F1], 0x7D),
  ([0x00FC], 0x7E),
  ([0x00E0], 0x7F),
  ([0x00B0, 0x02DA, 0x1D3C, 0x1D52, 0x2070], 0x80),
  ([0x00B9], 0x81),
  ([0x00B2], 0x82),
  ([0x00B3], 0x83),
  ([0x2074], 0x84),
  ([0x2075], 0x85),
  ([0x2076], 0x86),
  ([0x2077], 0x87),
  ([0x2078], 0x88),
  ([0x2079], 0x89),
  ([0x00BD], 0x8A),
  ([0x00BC], 0x8B),
  ([0x00B1], 0x8C),
  ([0x2265], 0x8D),
  ([0x2264], 0x8E),
  ([0x00B5, 0x03BC], 0x8F),
  ([0x266A, 0x1D160], 0x90),
  ([0x266C], 0x91),
  ([0x1F514, 0x1F56D], 0x92),
  ([0x2665, 0x2764, 0x1F499, 0x1F49A, 0x1F49B, 0x1F49C, 0x1F5A4, 0x1F90E, 0x1F9E1], 0x93),
  ([0x25C6, 0x2666], 0x94),
  ([0x10382], 0x95),
  ([0x300C], 0x96),
  ([0x300D], 0x97),
  ([0x201C, 0x275D], 0x98),
  ([0x201D, 0x275E], 0x99),
  ([0x0251, 0x03B1], 0x9C),
  ([0x025B, 0x03B5], 0x9D),
  ([0x03B4], 0x9E),
  ([0x221E], 0x9F),
  ([0x0040], 0xA0),
  ([0x00A3], 0xA1),
  ([0x0024], 0xA2),
  ([0x00A5], 0xA3),
  ([0x00E8], 0xA4),
  ([0x00E9], 0xA5),
  ([0x00F9], 0xA6),
  ([0x00EC], 0xA7),
  ([0x00F2], 0xA8),
  ([0x00C7], 0xA9),
  ([0x1D56], 0xAA),
  ([0x00D8], 0xAB),
  ([0x00F8], 0xAC),
  ([0x02B3], 0xAD),
  ([0x00C5, 0x212B], 0xAE),
  ([0x00E5], 0xAF),
  ([0x0394, 0x2206, 0x2302], 0xB0),
  ([0x00A2, 0x023C, 0x20B5], 0xB1),
  ([0x03A6], 0xB2),
  ([0x03C4], 0xB3),
  ([0x03BB], 0xB4),
  ([0x03A9, 0x2126], 0xB5),
  ([0x03C0], 0xB6),
  ([0x03A8], 0xB7),
  ([0x01A9, 0x03A3, 0x2211], 0xB8),
  ([0x0398, 0x03F4, 0x03B8], 0xB9),
  ([0x039E], 0xBA),
  ([0x23FA, 0x26AB, 0x2B24, 0x1F534], 0xBB),
  ([0x00C6], 0xBC),
  ([0x00E6, 0x04D5], 0xBD),
  ([0x00DF, 0x03B2], 0xBE),
  ([0x00C9], 0xBF),
  ([0x0393], 0xC0),
  ([0x039B], 0xC1),
  ([0x03A0, 0x220F], 0xC2),
  ([0x03A5, 0x03D3], 0xC3),
  ([0x005F, 0x02CD], 0xC4),
  ([0x00C8], 0xC5),
  ([0x00CA], 0xC6),
  ([0x00EA], 0xC7),
  ([0x00E7], 0xC8),
  ([0x011F, 0x01E7], 0xC9),
  ([0x015E], 0xCA),
  ([0x015F, 0x0219], 0xCB),
  ([0x0130], 0xCC),
  ([0x0131], 0xCD),
  ([0x007E, 0x02DC, 0x2053, 0x223C, 0x301C, 0xFF5E], 0xCE),
  ([0x25C7, 0x25CA, 0x2662], 0xCF),
  ([0x0192], 0xD5),
  ([0x2588], 0xD6),
  ([0x2589, 0x258A], 0xD7),
  ([0x258B, 0x258C], 0xD8),
  ([0x258D], 0xD9),
  ([0x258E, 0x258F], 0xDA),
  ([0x20A7], 0xDB),
  ([0x25E6], 0xDC),
  ([0x2022, 0x22C5], 0xDD),
  ([0x2191, 0x2B06, 0x2B61], 0xDE),
  ([0x2192, 0x2B95, 0x2B62], 0xDF),
  ([0x2193, 0x2B07, 0x2B63], 0xE0),
  ([0x2190, 0x2B05, 0x2B60], 0xE1),
  ([0x00C1], 0xE2),
  ([0x00CD], 0xE3),
  ([0x00D3], 0xE4),
  ([0x00DA], 0xE5),
  ([0x00DD], 0xE6),
  ([0x00E1], 0xE7),
  ([0x00ED], 0xE8),
  ([0x00F3], 0xE9),
  ([0x00FA], 0xEA),
  ([0x00FD], 0xEB),
  ([0x00D4], 0xEC),
  ([0x00F4], 0xED),
  ([0x010C], 0xF0),
  ([0x011A], 0xF1),
  ([0x0158], 0xF2),
  ([0x0160], 0xF3),
  ([0x017D], 0xF4),
  ([0x010D], 0xF5),
  ([0x011B], 0xF6),
  ([0x0159], 0xF7),
  ([0x0161], 0xF8),
  ([0x017E], 0xF9),
  ([0x005B], 0xFA),
  ([0x005C], 0xFB),
  ([0x005D], 0xFC),
  ([0x007B], 0xFD),
  ([0x007C], 0xFE),
  ([0x007D], 0xFF)]

/-- The Go encode1: first matching case wins, and an unmatched rune falls
through to the replacement byte 0x60 (the device glyph for inverted ?). -/
def encode1 (c : Nat) : Nat :=
  match encodeTable.find? (fun e => e.1.contains c) with
  | some e => e.2
  | none => 0x60

/-- The identityMapped range table of NewEncoder: space through the hash
sign, percent through the question mark, capital letters, small letters. -/
def inIdentity (c : Nat) : Bool :=
  (0x20 ≤ c && c ≤ 0x23) || (0x25 ≤ c && c ≤ 0x3F) ||
  (0x41 ≤ c && c ≤ 0x5A) || (0x61 ≤ c && c ≤ 0x7A)

/-- One rune through the transformer built by NewEncoder: identity-range
runes pass through unchanged, everything else goes through encode1. -/
def translitRune (c : Nat) : Nat :=
  if inIdentity c then c else encode1 c

/-- Whole-string transliteration, one output byte per decoded rune. -/
def translit (cs : List Nat) : List Nat := cs.map translitRune

set_option maxRecDepth 10000 in
theorem encodeTable_range : ∀ e ∈ encodeTable, 0x10 ≤ e.2 ∧ e.2 ≤ 0xFF := by
  decide

theorem encode1_range (c : Nat) : 0x10 ≤ encode1 c ∧ encode1 c ≤ 0xFF := by
  unfold encode1
  cases hf : encodeTable.find? (fun e => e.1.contains c) with
  | none => exact ⟨by norm_num, by norm_num⟩
  | some e => exact encodeTable_range e (List.mem_of_find?_eq_some hf)

theorem inIdentity_bounds (c : Nat) (h : inIdentity c = true) :
    0x20 ≤ c ∧ c ≤ 0x7A := by
  unfold inIdentity at h
  simp only [Bool.or_eq_true, Bool.and_eq_true, decide_eq_true_eq] at h
  omega

/-- Claim C8: every byte the transliterator outputs is at least 0x10 (and at
most 0xFF): identity-range runes map to themselves, hence to bytes of at
least 0x20; every case-table entry carries a byte in [0x10, 0xFF]; and
unmapped code points fall back to the replacement byte 0x60. -/
theorem translit_never_sprite_band (cs : List Nat) :
    (∀ b ∈ translit cs, 0x10 ≤ b ∧ b ≤ 0xFF) ∧
    (∀ c ∈ cs, inIdentity c = true → translitRune c = c ∧ 0x20 ≤ translitRune c) ∧
    (∀ c ∈ cs, inIdentity c = false →
      encodeTable.find? (fun e => e.1.contains c) = none → translitRune c = 0x60) ∧
    (∀ e ∈ encodeTable, 0x10 ≤ e.2 ∧ e.2 ≤ 0xFF) := by
  have hrune : ∀ c, 0x10 ≤ translitRune c ∧ translitRune c ≤ 0xFF := by
    intro c
    unfold translitRune
    by_cases hid : inIdentity c = true
    · rw [if_pos hid]
      have := inIdentity_bounds c hid
      omega
    · rw [if_neg hid]
      exact encode1_range c
  refine ⟨?_, ?_, ?_, encodeTable_range⟩
  · intro b hb
    obtain ⟨c, _, hc⟩ := List.mem_map.mp hb
    rw [← hc]
    exact hrune c
  · intro c _ hid
    have hself : translitRune c = c := by
      unfold translitRune
      rw [if_pos hid]
    refine ⟨hself, ?_⟩
    rw [hself]
    exact (inIdentity_bounds c hid).1
  · intro c _ hid hnone
    unfold translitRune
    rw [if_neg (by rw [hid]; exact Bool.false_ne_true)]
    unfold encode1
    rw [hnone]

set_option maxRecDepth 10000 in
/-- Witness for C8: capital A is in the identity range and keeps its byte
0x41; the rocket emoji is unmapped and becomes the replacement byte 0x60;
sharp s goes through the case table to byte 0xBE. -/
theorem translit_never_sprite_band_witness :
    translitRune 0x41 = 0x41 ∧ 0x20 ≤ translitRune 0x41 ∧
    translitRune 0x1F680 = 0x60 ∧
    (0x10 ≤ translitRune 0xDF ∧ translitRune 0xDF ≤ 0xFF) :=
  ⟨((translit_never_sprite_band [0x41, 0x1F680, 0xDF]).2.1 0x41 (by decide)
      (by decide)).1,
   ((translit_never_sprite_band [0x41, 0x1F680, 0xDF]).2.1 0x41 (by decide)
      (by decide)).2,
   (translit_never_sprite_band [0x41, 0x1F680, 0xDF]).2.2.1 0x1F680 (by decide)
      (by decide) (by decide),
   (translit_never_sprite_band [0x41, 0x1F680, 0xDF]).1 (translitRune 0xDF)
      (by decide)⟩

end Audiotrond
